import Mathlib

/-!
# Request layer of the pandanite node (`src/server/request_manager.cpp`)

A shallow embedding of the request handlers `submitProofOfWork`,
`verifyTransaction`, `getLedger` and `getStats`.

The handlers call into `BlockChain`, `Ledger`, `MemPool` and `HostManager`,
which live in other translation units; they enter the embedding as an interface
(`BlockChain σ`, `RequestManager σ`) over an arbitrary chain state `σ`.  Every call a handler makes on a collaborator is recorded, in
program order, in a trace of `Event`s, so that statements about *which* calls
happen and in *which order* can be read off the embedding.

Machine integers: `int` is a 32 bit two's complement integer, modelled as an
`Int` kept in range by `wrap32`; `uint32_t` values are `Nat`s below `2 ^ 32`.
-/

namespace Pandanite

/-! ## Value types -/

/-- Modelled from the spec: the `ExecutionStatus` enumeration, declared in a core
header outside `request_manager.cpp`.  The constructors are the status names of
the error taxonomy together with `SUCCESS`. -/
inductive ExecutionStatus
  | SUCCESS
  | INVALID_BLOCK_ID
  | INVALID_PREV_HASH
  | INVALID_DIFFICULTY
  | INVALID_POW
  | INVALID_MERKLE_ROOT
  | TRANSACTION_INVALID
  | INSUFFICIENT_FUNDS
  | INVALID_SIGNATURE
  | REPLAY
  | ALREADY_IN_POOL
  | FEE_TOO_LOW
  | NOT_FOUND
  deriving DecidableEq, Repr

/-- Modelled from the spec: a wallet address (`PublicWalletAddress`, declared in a
core header); only equality of addresses matters. -/
abbrev PublicWalletAddress := String

/-- Modelled from the spec: the `Transaction` value type of the data model
(sender, recipient, amount, fee, sequence number), declared outside
`request_manager.cpp`, which reads it through `getAmount` and
`getTransactionFee`.  Amounts and fees are non-negative integers. -/
structure Transaction where
  sender : PublicWalletAddress
  recipient : PublicWalletAddress
  amount : Nat
  fee : Nat
  nonce : Nat
  deriving DecidableEq, Repr

/-- Modelled from the spec: the `Block` value type of the data model, declared
outside `request_manager.cpp`, which reads it through `getId`, `getTimestamp`,
`getDifficulty` and `getTransactions`.  The id is the 32 bit position in the
chain; the timestamp is a number of seconds, held in a field wider than `int`. -/
structure Block where
  id : Nat
  timestamp : Nat
  difficulty : Nat
  transactions : List Transaction
  deriving DecidableEq, Repr

/-! ## JSON results -/

/-- The JSON values the handlers store in a result object.  `dbl num den` is the
`double` produced by the division `num / (double) den`; it is kept as the pair
of operands, the rounding of the quotient to a `double` is not modelled.
`txs ts` is the array holding `t.toJson()` for each `t` of `ts`, in order. -/
inductive JVal
  | str (s : String)
  | num (i : Int)
  | dbl (numer : Nat) (den : Int)
  | txs (ts : List Transaction)
  deriving DecidableEq, Repr

/-- A JSON object: keys with their values, in order of first assignment. -/
abbrev Json := List (String × JVal)

/-- The assignment `obj[key] = v`: overwrite the entry when the key is present,
add it otherwise. -/
def Json.set : Json → String → JVal → Json
  | [], key, v => [(key, v)]
  | (k, w) :: rest, key, v =>
      if k = key then (k, v) :: rest else (k, w) :: Json.set rest key v

/-- The entry stored under `key`, when there is one. -/
def Json.get? : Json → String → Option JVal
  | [], _ => none
  | (k, w) :: rest, key => if k = key then some w else Json.get? rest key

/-! ## Machine integers -/

/-- Conversion of an integer value to `int` (32 bit two's complement): the value
is reduced modulo `2 ^ 32`, and a residue of `2 ^ 31` or more stands for the
negative number `2 ^ 32` below it. -/
def wrap32 (x : Int) : Int :=
  let r : Nat := (x % 4294967296).toNat
  if r < 2147483648 then (r : Int) else (r : Int) - 4294967296

/-- Conversion of an integer value to `uint32_t`. -/
def toU32 (x : Int) : Nat := (x % 4294967296).toNat

/-- The `int` division `a / b`: it has no value when `b` is zero, nor for
`INT_MIN / -1`; otherwise the quotient is truncated towards zero. -/
def intDiv (a b : Int) : Except String Int :=
  if b = 0 then Except.error "integer division by zero"
  else if a = -2147483648 ∧ b = -1 then Except.error "integer division overflow"
  else Except.ok (Int.tdiv a b)

/-! ## Collaborators and traces -/

/-- One call made by a handler, or by a forwarding thread, on a collaborator. -/
inductive Event
  | getBlockCount
  | acquire
  | addBlock (b : Block)
  | release
  | getBlock (idx : Nat)
  | findBlockForTransaction (t : Transaction)
  | getLedger
  | hasWallet (w : PublicWalletAddress)
  | getWalletValue (w : PublicWalletAddress)
  | mempoolSize
  | sampleFreshHosts (n : Nat)
  | spawn (neighbor : String) (b : Block)
  | submitBlock (neighbor : String) (b : Block)
  | logStatus (msg : String)
  deriving DecidableEq, Repr

/-- The operations of `BlockChain` (and of the `Ledger` it owns) used by the
request layer, over a chain state `σ`.  An operation that can throw returns
`Except`. -/
structure BlockChain (σ : Type) where
  getBlockCount : σ → Nat
  addBlock : σ → Block → ExecutionStatus × σ
  getBlock : σ → Nat → Except String Block
  findBlockForTransaction : σ → Transaction → Except String Nat
  hasWallet : σ → PublicWalletAddress → Bool
  getWalletValue : σ → PublicWalletAddress → Except String Nat

/-- The members of `RequestManager` and the free functions it calls:
the chain, `executionStatusAsString`, `MemPool::size` and
`HostManager::sampleFreshHosts`. -/
structure RequestManager (σ : Type) where
  blockchain : BlockChain σ
  executionStatusAsString : ExecutionStatus → String
  mempoolSize : σ → Nat
  sampleFreshHosts : Nat → List String

/-- What a handler call leaves behind: the returned value (or the exception that
escaped), the chain state, the calls made by the handler itself in program
order, and the calls made by each thread it detached. -/
structure Outcome (σ : Type) where
  result : Except String Json
  chain : σ
  trace : List Event
  detached : List (List Event)

/-! ## `submitProofOfWork` -/

/-- The constant `NEW_BLOCK_PEER_FANOUT`. -/
def NEW_BLOCK_PEER_FANOUT : Nat := 8

/-- The body of the thread detached for one neighbour: copy the block, call
`submitBlock`, and log when the call throws.  `submitBlock n a = true` stands
for a call that returns, `false` for one that throws. -/
def forwardThread (submitBlock : String → Block → Bool) (neighbor : String)
    (newBlock : Block) : List Event :=
  let a := newBlock
  if submitBlock neighbor a then [Event.submitBlock neighbor a]
  else [Event.submitBlock neighbor a,
        Event.logStatus ("Could not forward new block to " ++ neighbor)]

/-- The handler `RequestManager::submitProofOfWork`. -/
def submitProofOfWork {σ : Type} (rm : RequestManager σ)
    (submitBlock : String → Block → Bool) (chain : σ) (newBlock : Block) : Outcome σ :=
  let result : Json := []
  if newBlock.id ≤ rm.blockchain.getBlockCount chain then
    let result := result.set "status"
      (JVal.str (rm.executionStatusAsString ExecutionStatus.INVALID_BLOCK_ID))
    { result := Except.ok result, chain := chain,
      trace := [Event.getBlockCount], detached := [] }
  else
    let r := rm.blockchain.addBlock chain newBlock
    let status := r.1
    let result := result.set "status" (JVal.str (rm.executionStatusAsString status))
    if status = ExecutionStatus.SUCCESS then
      let neighbors := rm.sampleFreshHosts NEW_BLOCK_PEER_FANOUT
      { result := Except.ok result, chain := r.2,
        trace := [Event.getBlockCount, Event.acquire, Event.addBlock newBlock, Event.release,
                  Event.sampleFreshHosts NEW_BLOCK_PEER_FANOUT]
                 ++ neighbors.map (fun neighbor => Event.spawn neighbor newBlock),
        detached := neighbors.map (fun neighbor => forwardThread submitBlock neighbor newBlock) }
    else
      { result := Except.ok result, chain := r.2,
        trace := [Event.getBlockCount, Event.acquire, Event.addBlock newBlock, Event.release],
        detached := [] }

/-! ## `verifyTransaction` and `getLedger` -/

/-- The handler `RequestManager::verifyTransaction`. -/
def verifyTransaction {σ : Type} (rm : RequestManager σ) (chain : σ) (t : Transaction) :
    Outcome σ :=
  let response : Json := []
  match rm.blockchain.findBlockForTransaction chain t with
  | Except.ok blockId =>
      let response := response.set "status" (JVal.str "SUCCESS")
      let response := response.set "blockId" (JVal.num blockId)
      { result := Except.ok response, chain := chain,
        trace := [Event.findBlockForTransaction t], detached := [] }
  | Except.error _ =>
      let response := response.set "error" (JVal.str "Could not find block")
      { result := Except.ok response, chain := chain,
        trace := [Event.findBlockForTransaction t], detached := [] }

/-- The handler `RequestManager::getLedger`. -/
def getLedger {σ : Type} (rm : RequestManager σ) (chain : σ) (w : PublicWalletAddress) :
    Outcome σ :=
  let result : Json := []
  if !rm.blockchain.hasWallet chain w then
    let result := result.set "error" (JVal.str "Wallet not found")
    { result := Except.ok result, chain := chain,
      trace := [Event.getLedger, Event.hasWallet w], detached := [] }
  else
    match rm.blockchain.getWalletValue chain w with
    | Except.ok v =>
        let result := result.set "balance" (JVal.num v)
        { result := Except.ok result, chain := chain,
          trace := [Event.getLedger, Event.hasWallet w, Event.getWalletValue w],
          detached := [] }
    | Except.error e =>
        { result := Except.error e, chain := chain,
          trace := [Event.getLedger, Event.hasWallet w, Event.getWalletValue w],
          detached := [] }

/-! ## `getStats` -/

/-- The loop over the transactions of the last block: the running `int` sums
`totalSent` and `fees`, and the transactions pushed to `info["transactions"]`. -/
def statsLoop (ts : List Transaction) : Int × Int × List Transaction :=
  ts.foldl
    (fun acc t => (wrap32 (acc.1 + t.amount), wrap32 (acc.2.1 + t.fee), acc.2.2 ++ [t]))
    (0, 0, [])

/-- The exact sum of the amounts of a list of transactions. -/
def totalAmount (ts : List Transaction) : Nat := (ts.map (fun t => t.amount)).sum

/-- The exact sum of the fees of a list of transactions. -/
def totalFees (ts : List Transaction) : Nat := (ts.map (fun t => t.fee)).sum

/-- Lines 172 to 189 of `RequestManager::getStats`: the statistics computed from
the last block `a` and the block `b` before it, stored in `info`.  The value is
an error when one of the two `int` divisions has no value. -/
def statsOfBlocks (info : Json) (a b : Block) : Except String Json :=
  let timeDelta : Int := wrap32 ((a.timestamp : Int) - (b.timestamp : Int))
  let info := info.set "transactions" (JVal.txs [])
  let loop := statsLoop a.transactions
  let totalSent := loop.1
  let fees := loop.2.1
  let info := info.set "transactions" (JVal.txs loop.2.2)
  let count : Int := wrap32 a.transactions.length
  let info := info.set "transactions_per_second" (JVal.dbl a.transactions.length timeDelta)
  let info := info.set "transaction_volume" (JVal.num totalSent)
  do
    let avgSize ← intDiv totalSent count
    let info := info.set "avg_transaction_size" (JVal.num avgSize)
    let avgFee ← intDiv fees count
    let info := info.set "avg_transaction_fee" (JVal.num avgFee)
    let info := info.set "difficulty" (JVal.num a.difficulty)
    let info := info.set "current_block" (JVal.num a.id)
    let info := info.set "last_block_time" (JVal.num timeDelta)
    return info

/-- Lines 163 to 167 of `RequestManager::getStats`: the entries stored before the
blocks are read, for a chain of `n` blocks and a pool of `pending` transactions. -/
def statsHeader (n pending : Nat) : Json :=
  let info : Json := []
  let coins : Int := wrap32 (((n * 50) % 4294967296 : Nat) : Int)
  let info := info.set "num_coins" (JVal.num coins)
  let info := info.set "num_wallets" (JVal.num 0)
  info.set "pending_transactions" (JVal.num pending)

/-- The calls `getStats` makes before it reads a block: `getBlockCount` at lines
159, 163 and 166, `MemPool::size` at line 167, `getBlockCount` at line 169. -/
def statsReads : List Event :=
  [Event.getBlockCount, Event.getBlockCount, Event.getBlockCount, Event.mempoolSize,
   Event.getBlockCount]

/-- The handler `RequestManager::getStats`. -/
def getStats {σ : Type} (rm : RequestManager σ) (chain : σ) : Outcome σ :=
  let n := rm.blockchain.getBlockCount chain
  if n = 1 then
    let info : Json := []
    let info := info.set "error" (JVal.str "Need more data")
    { result := Except.ok info, chain := chain, trace := [Event.getBlockCount], detached := [] }
  else
    let info := statsHeader n (rm.mempoolSize chain)
    let idx : Int := wrap32 n
    match rm.blockchain.getBlock chain (toU32 idx) with
    | Except.error e =>
        { result := Except.error e, chain := chain,
          trace := statsReads ++ [Event.getBlock (toU32 idx)], detached := [] }
    | Except.ok a =>
      match rm.blockchain.getBlock chain (toU32 (wrap32 (idx - 1))) with
      | Except.error e =>
          { result := Except.error e, chain := chain,
            trace := statsReads ++ [Event.getBlock (toU32 idx),
                                    Event.getBlock (toU32 (wrap32 (idx - 1)))],
            detached := [] }
      | Except.ok b =>
          { result := statsOfBlocks info a b, chain := chain,
            trace := statsReads ++ [Event.getBlock (toU32 idx),
                                    Event.getBlock (toU32 (wrap32 (idx - 1)))],
            detached := [] }

/-- The entry of the returned object under `key`; there is none when the handler
raised. -/
def Outcome.field {σ : Type} (o : Outcome σ) (key : String) : Option JVal :=
  match o.result with
  | Except.ok obj => Json.get? obj key
  | Except.error _ => none

/-! ## Reading traces -/

/-- The gate operations of a trace: `acquire`, `addBlock` and `release`. -/
def gateOps (tr : List Event) : List Event :=
  tr.filter (fun e =>
    match e with
    | Event.acquire => true
    | Event.addBlock _ => true
    | Event.release => true
    | _ => false)

/-- One step of the gate monitor.  The state is `some held`, or `none` once the
discipline has been broken: `acquire` needs a free gate, `release` and
`addBlock` need a held gate. -/
def gateStep (held : Option Bool) (e : Event) : Option Bool :=
  match held, e with
  | some false, Event.acquire => some true
  | some true, Event.acquire => none
  | some true, Event.release => some false
  | some false, Event.release => none
  | some false, Event.addBlock _ => none
  | h, _ => h

/-- Run the gate monitor over a trace, starting with a free gate.  The value
`some false` says: no step broke the discipline and the gate is free at the end. -/
def gateRun (tr : List Event) : Option Bool := tr.foldl gateStep (some false)

/-- The `submitBlock` calls of a trace: neighbour and block, in order. -/
def submitCalls (tr : List Event) : List (String × Block) :=
  tr.filterMap (fun e =>
    match e with
    | Event.submitBlock neighbor b => some (neighbor, b)
    | _ => none)

/-- The arguments of the `sampleFreshHosts` calls of a trace, in order. -/
def sampleCalls (tr : List Event) : List Nat :=
  tr.filterMap (fun e =>
    match e with
    | Event.sampleFreshHosts n => some n
    | _ => none)

/-- The block reads (`getBlock`) of a trace: the indices, in order. -/
def blockReads (tr : List Event) : List Nat :=
  tr.filterMap (fun e =>
    match e with
    | Event.getBlock i => some i
    | _ => none)

/-- Every `submitBlock` call of an outcome, by the handler or by a detached thread. -/
def allSubmitCalls {σ : Type} (o : Outcome σ) : List (String × Block) :=
  submitCalls o.trace ++ (o.detached.map submitCalls).flatten

/-! ## A concrete chain

A small instance of the interface, used to evaluate the handlers on concrete
inputs: the accepted blocks in order (block `i` at position `i - 1`) and a table
of wallet balances.  It accepts a block exactly when its id is the next one. -/

/-- The state of the concrete chain. -/
structure DemoChain where
  blocks : List Block
  wallets : List (PublicWalletAddress × Nat)
  deriving DecidableEq, Repr

/-- The operations of the concrete chain. -/
def demoBlockChain : BlockChain DemoChain where
  getBlockCount := fun c => c.blocks.length
  addBlock := fun c b =>
    if b.id = c.blocks.length + 1 then
      (ExecutionStatus.SUCCESS, { c with blocks := c.blocks ++ [b] })
    else (ExecutionStatus.INVALID_BLOCK_ID, c)
  getBlock := fun c i =>
    if i = 0 then Except.error "NOT_FOUND"
    else match c.blocks.get? (i - 1) with
      | some b => Except.ok b
      | none => Except.error "NOT_FOUND"
  findBlockForTransaction := fun c t =>
    match c.blocks.find? (fun b => b.transactions.contains t) with
    | some b => Except.ok b.id
    | none => Except.error "NOT_FOUND"
  hasWallet := fun c w => (c.wallets.lookup w).isSome
  getWalletValue := fun c w =>
    match c.wallets.lookup w with
    | some v => Except.ok v
    | none => Except.ok 0

/-- The name of a status, as a string. -/
def demoStatusString : ExecutionStatus → String
  | ExecutionStatus.SUCCESS => "SUCCESS"
  | ExecutionStatus.INVALID_BLOCK_ID => "INVALID_BLOCK_ID"
  | ExecutionStatus.NOT_FOUND => "NOT_FOUND"
  | _ => "REJECTED"

/-- A request manager over the concrete chain, with three peers and an empty pool. -/
def demoManager : RequestManager DemoChain where
  blockchain := demoBlockChain
  executionStatusAsString := demoStatusString
  mempoolSize := fun _ => 0
  sampleFreshHosts := fun n => ["peerA", "peerB", "peerC"].take n

/-- A transaction between two wallets. -/
def demoTx : Transaction :=
  { sender := "alice", recipient := "bob", amount := 10, fee := 1, nonce := 0 }

/-- Block 1, without transactions. -/
def demoBlock1 : Block := { id := 1, timestamp := 1000, difficulty := 16, transactions := [] }

/-- Block 2, with one transaction, 100 seconds after block 1. -/
def demoBlock2 : Block :=
  { id := 2, timestamp := 1100, difficulty := 16, transactions := [demoTx] }

/-- Block 3, with three transactions (total amount 30, total fees 3), 60 seconds
after block 2. -/
def demoBlock3 : Block :=
  { id := 3, timestamp := 1160, difficulty := 16,
    transactions := [demoTx, { demoTx with nonce := 1 }, { demoTx with nonce := 2 }] }

/-- The chain holding blocks 1 and 2, where `alice` has 0 coins and `bob` 10. -/
def demoChain2 : DemoChain :=
  { blocks := [demoBlock1, demoBlock2], wallets := [("alice", 0), ("bob", 10)] }

/-- The chain without any block. -/
def demoChain0 : DemoChain := { blocks := [], wallets := [] }

/-- The chain holding block 1 only. -/
def demoChain1 : DemoChain := { blocks := [demoBlock1], wallets := [] }

/-- A block 2 without transactions, 100 seconds after block 1. -/
def demoBlock2Empty : Block :=
  { id := 2, timestamp := 1100, difficulty := 16, transactions := [] }

/-- The chain holding block 1 and the block 2 without transactions. -/
def demoChainEmptyLast : DemoChain :=
  { blocks := [demoBlock1, demoBlock2Empty], wallets := [] }

/-- A block 2 with one transaction, 2147483648 seconds (2 ^ 31) after block 1. -/
def demoBlock2Late : Block :=
  { id := 2, timestamp := 2147484648, difficulty := 16, transactions := [demoTx] }

/-- The chain holding block 1 and the late block 2. -/
def demoChainLate : DemoChain :=
  { blocks := [demoBlock1, demoBlock2Late], wallets := [] }

/-- A network on which the call to `peerB` throws and every other call returns. -/
def peerBDown : String → Block → Bool := fun neighbor _ => neighbor != "peerB"

/-- A network on which every call returns. -/
def allUp : String → Block → Bool := fun _ _ => true

/-! ## Helper lemmas on traces -/

theorem submitCalls_forwardThread (submitBlock : String → Block → Bool) (neighbor : String)
    (newBlock : Block) :
    submitCalls (forwardThread submitBlock neighbor newBlock) = [(neighbor, newBlock)] := by
  unfold forwardThread submitCalls
  by_cases h : submitBlock neighbor newBlock = true <;> simp [h]

theorem gateOps_forwardThread (submitBlock : String → Block → Bool) (neighbor : String)
    (newBlock : Block) :
    gateOps (forwardThread submitBlock neighbor newBlock) = [] := by
  unfold forwardThread gateOps
  by_cases h : submitBlock neighbor newBlock = true <;> simp [h]

theorem gateOps_spawns (newBlock : Block) (neighbors : List String) :
    gateOps (neighbors.map (fun neighbor => Event.spawn neighbor newBlock)) = [] := by
  induction neighbors with
  | nil => rfl
  | cons x xs ih => simp [gateOps]

theorem gateRun_spawns (newBlock : Block) (neighbors : List String) (held : Option Bool) :
    (neighbors.map (fun neighbor => Event.spawn neighbor newBlock)).foldl gateStep held
      = held := by
  induction neighbors with
  | nil => rfl
  | cons x xs ih =>
    simp only [List.map_cons, List.foldl_cons]
    have hstep : gateStep held (Event.spawn x newBlock) = held := by
      cases held with
      | none => rfl
      | some b => cases b <;> rfl
    rw [hstep]
    exact ih

theorem submitCalls_spawns (newBlock : Block) (neighbors : List String) :
    submitCalls (neighbors.map (fun neighbor => Event.spawn neighbor newBlock)) = [] := by
  induction neighbors with
  | nil => rfl
  | cons x xs ih => simp [submitCalls]

theorem submitCalls_threads (submitBlock : String → Block → Bool) (newBlock : Block)
    (neighbors : List String) :
    (neighbors.map (fun neighbor => forwardThread submitBlock neighbor newBlock)).map submitCalls
      = neighbors.map (fun neighbor => [(neighbor, newBlock)]) := by
  induction neighbors with
  | nil => rfl
  | cons x xs ih =>
    simp only [List.map_cons, submitCalls_forwardThread, List.cons.injEq, true_and]
    exact ih

theorem flatten_singletons (newBlock : Block) (neighbors : List String) :
    (neighbors.map (fun neighbor => [(neighbor, newBlock)])).flatten
      = neighbors.map (fun neighbor => (neighbor, newBlock)) := by
  induction neighbors with
  | nil => rfl
  | cons x xs ih => simp [List.flatten, ih]

/-! ## Helper lemmas on JSON objects and machine integers -/

theorem Json.get?_set_same (obj : Json) (key : String) (v : JVal) :
    Json.get? (Json.set obj key v) key = some v := by
  induction obj with
  | nil => simp [Json.set, Json.get?]
  | cons p rest ih =>
    obtain ⟨k, w⟩ := p
    by_cases hk : k = key
    · simp [Json.set, Json.get?, hk]
    · simp [Json.set, Json.get?, hk, ih]

theorem Json.get?_set_other (obj : Json) (key key2 : String) (v : JVal) (hne : key ≠ key2) :
    Json.get? (Json.set obj key v) key2 = Json.get? obj key2 := by
  induction obj with
  | nil => simp [Json.set, Json.get?, hne]
  | cons p rest ih =>
    obtain ⟨k, w⟩ := p
    by_cases hk : k = key
    · subst hk; simp [Json.set, Json.get?, hne]
    · by_cases hk2 : k = key2
      · subst hk2; simp [Json.set, Json.get?, hk]
      · simp [Json.set, Json.get?, hk, hk2, ih]

theorem except_ok_bind {ε α β : Type} (x : α) (f : α → Except ε β) :
    (Except.ok x >>= f) = f x := rfl

theorem except_error_bind {ε α β : Type} (e : ε) (f : α → Except ε β) :
    ((Except.error e : Except ε α) >>= f) = Except.error e := rfl

theorem except_pure {ε α : Type} (x : α) : (pure x : Except ε α) = Except.ok x := rfl

theorem intDiv_pos (a b : Int) (hb : 0 < b) : intDiv a b = Except.ok (Int.tdiv a b) := by
  unfold intDiv
  have h1 : b ≠ 0 := by omega
  have h2 : ¬ (a = -2147483648 ∧ b = -1) := by omega
  simp [h1, h2]

theorem wrap32_eq (x : Int) :
    wrap32 x = (x + 2147483648) % 4294967296 - 2147483648 := by
  unfold wrap32; simp only; split <;> omega

theorem toU32_wrap32 (c : Nat) (h : c < 4294967296) : toU32 (wrap32 c) = c := by
  rw [wrap32_eq]; unfold toU32; omega

theorem toU32_wrap32_pred (c : Nat) (h : c < 4294967296) (h1 : 1 ≤ c) :
    toU32 (wrap32 (wrap32 c - 1)) = c - 1 := by
  rw [wrap32_eq, wrap32_eq]; unfold toU32; omega

theorem wrap32_small (x : Int) (h0 : 0 ≤ x) (h1 : x < 2147483648) : wrap32 x = x := by
  rw [wrap32_eq]; omega

/-! ## Helper lemmas on `getStats` -/

theorem statsHeader_no_error (n pending : Nat) :
    Json.get? (statsHeader n pending) "error" = none := by
  unfold statsHeader
  iterate 3 rw [Json.get?_set_other _ _ _ _ (by decide)]
  rfl

theorem statsOfBlocks_no_error (info : Json) (a b : Block)
    (hinfo : Json.get? info "error" = none) (obj : Json)
    (hobj : statsOfBlocks info a b = Except.ok obj) : Json.get? obj "error" = none := by
  unfold statsOfBlocks at hobj
  dsimp only at hobj
  cases h1 : intDiv (statsLoop a.transactions).1 (wrap32 (a.transactions.length : Int)) with
  | error e => rw [h1, except_error_bind] at hobj; cases hobj
  | ok avgSize =>
    rw [h1, except_ok_bind] at hobj
    cases h2 : intDiv (statsLoop a.transactions).2.1 (wrap32 (a.transactions.length : Int)) with
    | error e => rw [h2, except_error_bind] at hobj; cases hobj
    | ok avgFee =>
      rw [h2, except_ok_bind, except_pure] at hobj
      rw [← Except.ok.inj hobj]
      iterate 9 rw [Json.get?_set_other _ _ _ _ (by decide)]
      exact hinfo

theorem statsOfBlocks_ok (info : Json) (a b : Block)
    (hd : b.timestamp < a.timestamp) (hd32 : a.timestamp - b.timestamp < 2147483648)
    (hn : 1 ≤ a.transactions.length) (hn32 : a.transactions.length < 2147483648) :
    ∃ obj, statsOfBlocks info a b = Except.ok obj
      ∧ Json.get? obj "transactions_per_second"
          = some (JVal.dbl a.transactions.length ((a.timestamp - b.timestamp : Nat) : Int))
      ∧ Json.get? obj "last_block_time"
          = some (JVal.num ((a.timestamp - b.timestamp : Nat) : Int))
      ∧ Json.get? obj "current_block" = some (JVal.num a.id) := by
  have hcount : wrap32 (a.transactions.length : Int) = a.transactions.length :=
    wrap32_small _ (by omega) (by omega)
  have hdelta : wrap32 ((a.timestamp : Int) - (b.timestamp : Int))
      = ((a.timestamp - b.timestamp : Nat) : Int) := by
    rw [wrap32_small _ (by omega) (by omega)]; omega
  have hpos : (0 : Int) < a.transactions.length := by omega
  unfold statsOfBlocks
  simp only [hcount, hdelta, intDiv_pos _ _ hpos, except_ok_bind, except_pure]
  refine ⟨_, rfl, ?_, ?_, ?_⟩
  · iterate 6 rw [Json.get?_set_other _ _ _ _ (by decide)]
    rw [Json.get?_set_same]
  · rw [Json.get?_set_same]
  · rw [Json.get?_set_other _ _ _ _ (by decide), Json.get?_set_same]

theorem getStats_trace_cases {σ : Type} (rm : RequestManager σ) (chain : σ) :
    ((getStats rm chain).trace = [Event.getBlockCount]
      ∨ (getStats rm chain).trace
          = statsReads ++ [Event.getBlock (toU32 (wrap32 (rm.blockchain.getBlockCount chain)))]
      ∨ (getStats rm chain).trace
          = statsReads ++ [Event.getBlock (toU32 (wrap32 (rm.blockchain.getBlockCount chain))),
              Event.getBlock
                (toU32 (wrap32 (wrap32 (rm.blockchain.getBlockCount chain) - 1)))])
      ∧ (rm.blockchain.getBlockCount chain ≠ 1 →
          Event.getBlock (toU32 (wrap32 (rm.blockchain.getBlockCount chain)))
            ∈ (getStats rm chain).trace)
      ∧ (getStats rm chain).detached = []
      ∧ (getStats rm chain).chain = chain := by
  unfold getStats
  dsimp only
  by_cases hone : rm.blockchain.getBlockCount chain = 1
  · rw [if_pos hone]; exact ⟨Or.inl rfl, fun hne => absurd hone hne, rfl, rfl⟩
  · rw [if_neg hone]
    cases hA : rm.blockchain.getBlock chain
        (toU32 (wrap32 (rm.blockchain.getBlockCount chain))) with
    | error e =>
      exact ⟨Or.inr (Or.inl rfl),
        fun _ => List.mem_append_right _ (List.mem_cons_self _ _), rfl, rfl⟩
    | ok a =>
      cases hB : rm.blockchain.getBlock chain
          (toU32 (wrap32 (wrap32 (rm.blockchain.getBlockCount chain) - 1))) with
      | error e =>
        exact ⟨Or.inr (Or.inr rfl),
          fun _ => List.mem_append_right _ (List.mem_cons_self _ _), rfl, rfl⟩
      | ok b =>
        exact ⟨Or.inr (Or.inr rfl),
          fun _ => List.mem_append_right _ (List.mem_cons_self _ _), rfl, rfl⟩

theorem getStats_trace_exact {σ : Type} (rm : RequestManager σ) (chain : σ) :
    (rm.blockchain.getBlockCount chain = 1 →
        (getStats rm chain).trace = [Event.getBlockCount])
      ∧ (rm.blockchain.getBlockCount chain ≠ 1 →
          ∀ e, rm.blockchain.getBlock chain
              (toU32 (wrap32 (rm.blockchain.getBlockCount chain))) = Except.error e →
            (getStats rm chain).trace
              = statsReads
                ++ [Event.getBlock (toU32 (wrap32 (rm.blockchain.getBlockCount chain)))])
      ∧ (rm.blockchain.getBlockCount chain ≠ 1 →
          ∀ a, rm.blockchain.getBlock chain
              (toU32 (wrap32 (rm.blockchain.getBlockCount chain))) = Except.ok a →
            (getStats rm chain).trace
              = statsReads
                ++ [Event.getBlock (toU32 (wrap32 (rm.blockchain.getBlockCount chain))),
                    Event.getBlock
                      (toU32 (wrap32 (wrap32 (rm.blockchain.getBlockCount chain) - 1)))]) := by
  unfold getStats
  dsimp only
  by_cases hone : rm.blockchain.getBlockCount chain = 1
  · rw [if_pos hone]
    exact ⟨fun _ => rfl, fun hne => absurd hone hne, fun hne => absurd hone hne⟩
  · rw [if_neg hone]
    refine ⟨fun h => absurd h hone, ?_, ?_⟩
    · intro _ e he
      rw [he]
    · intro _ a ha
      rw [ha]
      cases hB : rm.blockchain.getBlock chain
          (toU32 (wrap32 (wrap32 (rm.blockchain.getBlockCount chain) - 1))) with
      | error e => rfl
      | ok b => rfl

theorem getStats_of_blocks {σ : Type} (rm : RequestManager σ) (chain : σ) (a b : Block)
    (hc : 2 ≤ rm.blockchain.getBlockCount chain)
    (hc32 : rm.blockchain.getBlockCount chain < 4294967296)
    (ha : rm.blockchain.getBlock chain (rm.blockchain.getBlockCount chain) = Except.ok a)
    (hb : rm.blockchain.getBlock chain (rm.blockchain.getBlockCount chain - 1)
      = Except.ok b) :
    getStats rm chain
      = { result := statsOfBlocks
            (statsHeader (rm.blockchain.getBlockCount chain) (rm.mempoolSize chain)) a b,
          chain := chain,
          trace := statsReads ++ [Event.getBlock (rm.blockchain.getBlockCount chain),
            Event.getBlock (rm.blockchain.getBlockCount chain - 1)],
          detached := [] } := by
  have hne : rm.blockchain.getBlockCount chain ≠ 1 := by omega
  unfold getStats
  dsimp only
  rw [if_neg hne, toU32_wrap32 _ hc32, toU32_wrap32_pred _ hc32 (by omega), ha, hb]

theorem wrap32_add_left (x y : Int) : wrap32 (wrap32 x + y) = wrap32 (x + y) := by
  rw [wrap32_eq, wrap32_eq, wrap32_eq]; omega

theorem statsLoop_foldl (ts : List Transaction) (s f : Int) (pushed : List Transaction) :
    ts.foldl
      (fun acc t => (wrap32 (acc.1 + t.amount), wrap32 (acc.2.1 + t.fee), acc.2.2 ++ [t]))
      (wrap32 s, wrap32 f, pushed)
    = (wrap32 (s + totalAmount ts), wrap32 (f + totalFees ts), pushed ++ ts) := by
  induction ts generalizing s f pushed with
  | nil => simp [totalAmount, totalFees]
  | cons t rest ih =>
    simp only [List.foldl_cons, wrap32_add_left]
    rw [ih]
    simp only [totalAmount, totalFees, List.map_cons, List.sum_cons, Nat.cast_add,
      List.append_assoc, List.singleton_append]
    rw [add_assoc, add_assoc]

theorem statsLoop_eq (ts : List Transaction) :
    statsLoop ts = (wrap32 (totalAmount ts), wrap32 (totalFees ts), ts) := by
  have h := statsLoop_foldl ts 0 0 []
  have h0 : wrap32 0 = 0 := by decide
  rw [h0] at h
  unfold statsLoop
  rw [h]
  simp

/-! ## `submitProofOfWork`: the id pre-check -/

/-- C1: a candidate whose id is at most the current block count is answered with
the status `INVALID_BLOCK_ID`; the handler only reads the block count (no
`acquire`, `addBlock`, `release`, no host sampling, no thread), and the chain
state after the call is the state before it. -/
theorem submitProofOfWork_stale_id {σ : Type} (rm : RequestManager σ)
    (submitBlock : String → Block → Bool) (chain : σ) (newBlock : Block)
    (h : newBlock.id ≤ rm.blockchain.getBlockCount chain) :
    (submitProofOfWork rm submitBlock chain newBlock).result
        = Except.ok
            [("status", JVal.str (rm.executionStatusAsString ExecutionStatus.INVALID_BLOCK_ID))]
      ∧ (submitProofOfWork rm submitBlock chain newBlock).chain = chain
      ∧ (submitProofOfWork rm submitBlock chain newBlock).trace = [Event.getBlockCount]
      ∧ gateOps (submitProofOfWork rm submitBlock chain newBlock).trace = []
      ∧ (submitProofOfWork rm submitBlock chain newBlock).detached = []
      ∧ allSubmitCalls (submitProofOfWork rm submitBlock chain newBlock) = [] := by
  simp [submitProofOfWork, h, Json.set, gateOps, allSubmitCalls, submitCalls]

/-- Witness of C1: block 2 resubmitted to the chain that already holds blocks 1 and 2. -/
theorem submitProofOfWork_stale_id_witness :
    demoBlock2.id ≤ demoManager.blockchain.getBlockCount demoChain2
      ∧ (submitProofOfWork demoManager allUp demoChain2 demoBlock2).result
          = Except.ok [("status", JVal.str "INVALID_BLOCK_ID")]
      ∧ (submitProofOfWork demoManager allUp demoChain2 demoBlock2).chain = demoChain2
      ∧ (submitProofOfWork demoManager allUp demoChain2 demoBlock2).trace
          = [Event.getBlockCount] :=
  have h := submitProofOfWork_stale_id demoManager allUp demoChain2 demoBlock2 (by decide)
  ⟨by decide, h.1, h.2.1, h.2.2.1⟩

/-! ## `submitProofOfWork`: forwarding -/

/-- C2: forwarding happens exactly when `addBlock` returned `SUCCESS`.  In that
case the handler calls `sampleFreshHosts(8)` once, detaches one thread per
returned neighbour, and each thread issues one `submitBlock` for its neighbour
with a block equal to the accepted one; hence at most 8 `submitBlock` calls when
the sampler returns at most 8 hosts.  In every other case (another status of
`addBlock`, or the id pre-check) no host is sampled, no thread is detached and no
`submitBlock` is issued. -/
theorem submitProofOfWork_forwards_iff_success {σ : Type} (rm : RequestManager σ)
    (submitBlock : String → Block → Bool) (chain : σ) (newBlock : Block) :
    ((rm.blockchain.getBlockCount chain < newBlock.id
        ∧ (rm.blockchain.addBlock chain newBlock).1 = ExecutionStatus.SUCCESS) →
      sampleCalls (submitProofOfWork rm submitBlock chain newBlock).trace
          = [NEW_BLOCK_PEER_FANOUT]
        ∧ NEW_BLOCK_PEER_FANOUT = 8
        ∧ (submitProofOfWork rm submitBlock chain newBlock).detached.length
            = (rm.sampleFreshHosts 8).length
        ∧ (submitProofOfWork rm submitBlock chain newBlock).detached.map submitCalls
            = (rm.sampleFreshHosts 8).map (fun neighbor => [(neighbor, newBlock)])
        ∧ allSubmitCalls (submitProofOfWork rm submitBlock chain newBlock)
            = (rm.sampleFreshHosts 8).map (fun neighbor => (neighbor, newBlock))
        ∧ ((rm.sampleFreshHosts 8).length ≤ 8 →
            (allSubmitCalls (submitProofOfWork rm submitBlock chain newBlock)).length ≤ 8))
    ∧ (¬ (rm.blockchain.getBlockCount chain < newBlock.id
        ∧ (rm.blockchain.addBlock chain newBlock).1 = ExecutionStatus.SUCCESS) →
      sampleCalls (submitProofOfWork rm submitBlock chain newBlock).trace = []
        ∧ (submitProofOfWork rm submitBlock chain newBlock).detached = []
        ∧ allSubmitCalls (submitProofOfWork rm submitBlock chain newBlock) = []) := by
  constructor
  · rintro ⟨hid, hok⟩
    have hid2 : ¬ newBlock.id ≤ rm.blockchain.getBlockCount chain := by omega
    have hcalls : allSubmitCalls (submitProofOfWork rm submitBlock chain newBlock)
        = (rm.sampleFreshHosts 8).map (fun neighbor => (neighbor, newBlock)) := by
      simp only [allSubmitCalls, submitProofOfWork, hid2, hok, if_false, if_true,
        NEW_BLOCK_PEER_FANOUT, submitCalls_threads, flatten_singletons]
      have h0 : submitCalls
          ([Event.getBlockCount, Event.acquire, Event.addBlock newBlock, Event.release,
            Event.sampleFreshHosts 8]
            ++ (rm.sampleFreshHosts 8).map (fun neighbor => Event.spawn neighbor newBlock))
          = [] := by
        simp [submitCalls]
      rw [h0]; rfl
    refine ⟨?_, rfl, ?_, ?_, hcalls, ?_⟩
    · simp only [submitProofOfWork, hid2, hok, if_false, if_true, NEW_BLOCK_PEER_FANOUT]
      simp [sampleCalls]
    · simp [submitProofOfWork, hid2, hok, NEW_BLOCK_PEER_FANOUT]
    · simp only [submitProofOfWork, hid2, hok, if_false, if_true, NEW_BLOCK_PEER_FANOUT,
        submitCalls_threads]
    · intro hlen
      rw [hcalls]; simpa using hlen
  · intro hno
    by_cases hid : newBlock.id ≤ rm.blockchain.getBlockCount chain
    · simp [submitProofOfWork, hid, allSubmitCalls, submitCalls, sampleCalls]
    · have hst : ¬ (rm.blockchain.addBlock chain newBlock).1 = ExecutionStatus.SUCCESS := by
        intro hok; exact hno ⟨by omega, hok⟩
      simp [submitProofOfWork, hid, hst, allSubmitCalls, submitCalls, sampleCalls]

/-- Instance of C2: block 3 is accepted on top of blocks 1 and 2 and goes to the
three sampled peers, once each, also to the peer whose call fails. -/
theorem submitProofOfWork_forwards_iff_success_witness :
    allSubmitCalls (submitProofOfWork demoManager peerBDown demoChain2 demoBlock3)
      = [("peerA", demoBlock3), ("peerB", demoBlock3), ("peerC", demoBlock3)] :=
  ((submitProofOfWork_forwards_iff_success demoManager peerBDown demoChain2 demoBlock3).1
    ⟨by decide, by decide⟩).2.2.2.2.1

/-! ## `submitProofOfWork`: the returned status -/

/-- C3: for a candidate whose id is greater than the current block count, the
returned object is `status` = the status `addBlock` returned.  Two runs that
differ only in which `submitBlock` calls fail return the same result, leave the
same chain state and make the same calls from the handler; and in both runs each
detached thread issues exactly one `submitBlock`, the same one, so a failed call
is not repeated. -/
theorem submitProofOfWork_status_independent_of_forwarding {σ : Type}
    (rm : RequestManager σ) (submitBlock₁ submitBlock₂ : String → Block → Bool)
    (chain : σ) (newBlock : Block)
    (h : rm.blockchain.getBlockCount chain < newBlock.id) :
    (submitProofOfWork rm submitBlock₁ chain newBlock).result
        = Except.ok [("status",
            JVal.str (rm.executionStatusAsString (rm.blockchain.addBlock chain newBlock).1))]
      ∧ (submitProofOfWork rm submitBlock₁ chain newBlock).result
          = (submitProofOfWork rm submitBlock₂ chain newBlock).result
      ∧ (submitProofOfWork rm submitBlock₁ chain newBlock).chain
          = (submitProofOfWork rm submitBlock₂ chain newBlock).chain
      ∧ (submitProofOfWork rm submitBlock₁ chain newBlock).trace
          = (submitProofOfWork rm submitBlock₂ chain newBlock).trace
      ∧ (submitProofOfWork rm submitBlock₁ chain newBlock).detached.map submitCalls
          = (submitProofOfWork rm submitBlock₂ chain newBlock).detached.map submitCalls
      ∧ (∀ thread ∈ (submitProofOfWork rm submitBlock₁ chain newBlock).detached,
          (submitCalls thread).length = 1) := by
  have hid : ¬ newBlock.id ≤ rm.blockchain.getBlockCount chain := by omega
  by_cases hok : (rm.blockchain.addBlock chain newBlock).1 = ExecutionStatus.SUCCESS
  · refine ⟨?_, ?_, ?_, ?_, ?_, ?_⟩
    · simp [submitProofOfWork, hid, hok, Json.set]
    · simp [submitProofOfWork, hid, hok]
    · simp [submitProofOfWork, hid, hok]
    · simp [submitProofOfWork, hid, hok]
    · simp only [submitProofOfWork, hid, hok, if_false, if_true, submitCalls_threads]
    · intro thread hmem
      simp only [submitProofOfWork, hid, hok, if_false, if_true, List.mem_map] at hmem
      obtain ⟨neighbor, _, rfl⟩ := hmem
      rw [submitCalls_forwardThread]; rfl
  · refine ⟨?_, ?_, ?_, ?_, ?_, ?_⟩
    · simp [submitProofOfWork, hid, hok, Json.set]
    · simp [submitProofOfWork, hid, hok]
    · simp [submitProofOfWork, hid, hok]
    · simp [submitProofOfWork, hid, hok]
    · simp [submitProofOfWork, hid, hok]
    · intro thread hmem
      simp [submitProofOfWork, hid, hok] at hmem

/-- Witness of C3: block 3 submitted on a network where `peerB` fails and on one
where every peer answers; the result is `SUCCESS` both times. -/
theorem submitProofOfWork_status_independent_of_forwarding_witness :
    demoManager.blockchain.getBlockCount demoChain2 < demoBlock3.id
      ∧ (submitProofOfWork demoManager peerBDown demoChain2 demoBlock3).result
          = Except.ok [("status", JVal.str "SUCCESS")]
      ∧ (submitProofOfWork demoManager peerBDown demoChain2 demoBlock3).result
          = (submitProofOfWork demoManager allUp demoChain2 demoBlock3).result
      ∧ (submitProofOfWork demoManager peerBDown demoChain2 demoBlock3).detached
          ≠ (submitProofOfWork demoManager allUp demoChain2 demoBlock3).detached :=
  have h := submitProofOfWork_status_independent_of_forwarding demoManager peerBDown allUp
    demoChain2 demoBlock3 (by decide)
  ⟨by decide, h.1, h.2.1, by decide⟩

/-! ## `submitProofOfWork`: the gate -/

/-- C4: in every run of the handler the gate monitor accepts the trace and ends
with the gate free (`gateRun` = `some false`): `addBlock` is only called with
the gate held, and the gate is released before the handler returns, whatever
status `addBlock` returned.  The gate operations of the handler are either none
(id pre-check) or exactly `acquire`, `addBlock newBlock`, `release`; they are
the latter whenever `addBlock` is called.  No detached thread touches the gate. -/
theorem submitProofOfWork_gate_discipline {σ : Type} (rm : RequestManager σ)
    (submitBlock : String → Block → Bool) (chain : σ) (newBlock : Block) :
    gateRun (submitProofOfWork rm submitBlock chain newBlock).trace = some false
      ∧ (gateOps (submitProofOfWork rm submitBlock chain newBlock).trace = []
          ∨ gateOps (submitProofOfWork rm submitBlock chain newBlock).trace
              = [Event.acquire, Event.addBlock newBlock, Event.release])
      ∧ (∀ b, Event.addBlock b ∈ (submitProofOfWork rm submitBlock chain newBlock).trace →
          gateOps (submitProofOfWork rm submitBlock chain newBlock).trace
            = [Event.acquire, Event.addBlock newBlock, Event.release])
      ∧ (rm.blockchain.getBlockCount chain < newBlock.id →
          gateOps (submitProofOfWork rm submitBlock chain newBlock).trace
            = [Event.acquire, Event.addBlock newBlock, Event.release])
      ∧ (∀ thread ∈ (submitProofOfWork rm submitBlock chain newBlock).detached,
          gateOps thread = []) := by
  by_cases hid : newBlock.id ≤ rm.blockchain.getBlockCount chain
  · have hlt : ¬ rm.blockchain.getBlockCount chain < newBlock.id := by omega
    simp [submitProofOfWork, hid, hlt, gateRun, gateStep, gateOps]
  · by_cases hok : (rm.blockchain.addBlock chain newBlock).1 = ExecutionStatus.SUCCESS
    · have hops : gateOps (submitProofOfWork rm submitBlock chain newBlock).trace
          = [Event.acquire, Event.addBlock newBlock, Event.release] := by
        simp [submitProofOfWork, hid, hok, gateOps]
      refine ⟨?_, Or.inr hops, fun _ _ => hops, fun _ => hops, ?_⟩
      · simp only [submitProofOfWork, hid, hok, if_false, if_true, gateRun, List.foldl_append,
          gateRun_spawns]
        rfl
      · intro thread hmem
        simp only [submitProofOfWork, hid, hok, if_false, if_true, List.mem_map] at hmem
        obtain ⟨neighbor, _, rfl⟩ := hmem
        exact gateOps_forwardThread submitBlock neighbor newBlock
    · have hops : gateOps (submitProofOfWork rm submitBlock chain newBlock).trace
          = [Event.acquire, Event.addBlock newBlock, Event.release] := by
        simp [submitProofOfWork, hid, hok, gateOps]
      refine ⟨?_, Or.inr hops, fun _ _ => hops, fun _ => hops, ?_⟩
      · simp [submitProofOfWork, hid, hok, gateRun, gateStep]
      · intro thread hmem
        simp [submitProofOfWork, hid, hok] at hmem

/-- Instance of C4 on a rejection: block 1 with the id 7 is refused by `addBlock`
(the chain holds 2 blocks), and the gate is taken and released around the call. -/
theorem submitProofOfWork_gate_discipline_witness :
    (submitProofOfWork demoManager allUp demoChain2 { demoBlock1 with id := 7 }).result
        = Except.ok [("status", JVal.str "INVALID_BLOCK_ID")]
      ∧ gateRun (submitProofOfWork demoManager allUp demoChain2
          { demoBlock1 with id := 7 }).trace = some false
      ∧ gateOps (submitProofOfWork demoManager allUp demoChain2
          { demoBlock1 with id := 7 }).trace
          = [Event.acquire, Event.addBlock { demoBlock1 with id := 7 }, Event.release] :=
  have h := submitProofOfWork_gate_discipline demoManager allUp demoChain2
    { demoBlock1 with id := 7 }
  ⟨by rfl, h.1, h.2.2.2.1 (by decide)⟩

/-! ## `verifyTransaction` and `getLedger` -/

/-- C9: `verifyTransaction` always returns an object.  When
`findBlockForTransaction` returns the block id `b` the object is exactly
`status` = "SUCCESS", `blockId` = `b`; when it throws the object holds the
`error` entry alone. -/
theorem verifyTransaction_total {σ : Type} (rm : RequestManager σ) (chain : σ)
    (t : Transaction) :
    (∃ obj, (verifyTransaction rm chain t).result = Except.ok obj)
      ∧ (∀ blockId, rm.blockchain.findBlockForTransaction chain t = Except.ok blockId →
          (verifyTransaction rm chain t).result
            = Except.ok [("status", JVal.str "SUCCESS"), ("blockId", JVal.num blockId)])
      ∧ (∀ e, rm.blockchain.findBlockForTransaction chain t = Except.error e →
          (verifyTransaction rm chain t).result
              = Except.ok [("error", JVal.str "Could not find block")]
            ∧ (verifyTransaction rm chain t).field "status" = none
            ∧ (verifyTransaction rm chain t).field "blockId" = none) := by
  unfold verifyTransaction
  cases hfind : rm.blockchain.findBlockForTransaction chain t with
  | error e =>
    refine ⟨⟨_, rfl⟩, ?_, ?_⟩
    · intro blockId hb; cases hb
    · intro e2 _
      exact ⟨rfl, rfl, rfl⟩
  | ok blockId =>
    refine ⟨⟨_, rfl⟩, ?_, ?_⟩
    · intro b2 hb
      cases hb
      rfl
    · intro e2 he; cases he

/-- Instance of C9: the transaction of block 2 is found in block 2, a transaction
that is in no block gives the `error` object. -/
theorem verifyTransaction_total_witness :
    (verifyTransaction demoManager demoChain2 demoTx).result
        = Except.ok [("status", JVal.str "SUCCESS"), ("blockId", JVal.num 2)]
      ∧ (verifyTransaction demoManager demoChain2 { demoTx with nonce := 9 }).result
        = Except.ok [("error", JVal.str "Could not find block")] :=
  ⟨(verifyTransaction_total demoManager demoChain2 demoTx).2.1 2 (by rfl),
   ((verifyTransaction_total demoManager demoChain2 { demoTx with nonce := 9 }).2.2
      "NOT_FOUND" (by rfl)).1⟩

/-- C8: `getLedger` returns exactly one of the two entries.  For a wallet the
ledger does not have, the object holds the `error` entry alone and
`getWalletValue` is not called, so nothing is raised; for a wallet it has, with
value `v`, the object holds `balance` = `v` alone. -/
theorem getLedger_balance_or_error {σ : Type} (rm : RequestManager σ) (chain : σ)
    (w : PublicWalletAddress) :
    (rm.blockchain.hasWallet chain w = false →
        (getLedger rm chain w).result = Except.ok [("error", JVal.str "Wallet not found")]
          ∧ (getLedger rm chain w).field "balance" = none
          ∧ Event.getWalletValue w ∉ (getLedger rm chain w).trace)
      ∧ (∀ v, rm.blockchain.hasWallet chain w = true →
          rm.blockchain.getWalletValue chain w = Except.ok v →
          (getLedger rm chain w).result = Except.ok [("balance", JVal.num v)]
            ∧ (getLedger rm chain w).field "error" = none) := by
  constructor
  · intro hno
    simp [getLedger, hno, Json.set, Outcome.field, Json.get?]
  · intro v hyes hval
    simp [getLedger, hyes, hval, Json.set, Outcome.field, Json.get?]

/-- Instance of C8: `alice` is known with balance 0 and gets `balance` = 0;
`carol` is unknown and gets the `error` object. -/
theorem getLedger_balance_or_error_witness :
    (getLedger demoManager demoChain2 "alice").result = Except.ok [("balance", JVal.num 0)]
      ∧ (getLedger demoManager demoChain2 "carol").result
          = Except.ok [("error", JVal.str "Wallet not found")] :=
  ⟨((getLedger_balance_or_error demoManager demoChain2 "alice").2 0 (by rfl) (by rfl)).1,
   ((getLedger_balance_or_error demoManager demoChain2 "carol").1 (by rfl)).1⟩

/-! ## `getStats`: the guard on the block count -/

/-- Supporting fact for C5: on a chain of exactly one block `getStats` returns the
object holding the `error` entry alone, after reading the block count only. -/
theorem getStats_single_block {σ : Type} (rm : RequestManager σ) (chain : σ)
    (h : rm.blockchain.getBlockCount chain = 1) :
    (getStats rm chain).result = Except.ok [("error", JVal.str "Need more data")]
      ∧ (getStats rm chain).trace = [Event.getBlockCount]
      ∧ blockReads (getStats rm chain).trace = [] := by
  unfold getStats
  dsimp only
  rw [if_pos h]
  exact ⟨rfl, rfl, rfl⟩

/-- C5, on the code: on a chain of 0 blocks `getStats` does not answer with the
`error` object.  It passes the guard (which tests the count against 1), reads
block 0, and whatever it returns has no `error` entry. -/
theorem getStats_empty_chain_reads_block {σ : Type} (rm : RequestManager σ) (chain : σ)
    (h : rm.blockchain.getBlockCount chain = 0) :
    Event.getBlock 0 ∈ (getStats rm chain).trace
      ∧ (getStats rm chain).field "error" = none := by
  have hidx : toU32 (wrap32 ((0 : Nat) : Int)) = 0 := toU32_wrap32 0 (by decide)
  have hzero : ¬ (0 : Nat) = 1 := by decide
  unfold getStats Outcome.field
  dsimp only
  rw [h, if_neg hzero, hidx]
  generalize toU32 (wrap32 (wrap32 ((0 : Nat) : Int) - 1)) = j
  cases hA : rm.blockchain.getBlock chain 0 with
  | error e => exact ⟨List.mem_append_right _ (List.mem_cons_self _ _), rfl⟩
  | ok a =>
    cases hB : rm.blockchain.getBlock chain j with
    | error e => exact ⟨List.mem_append_right _ (List.mem_cons_self _ _), rfl⟩
    | ok b =>
      refine ⟨List.mem_append_right _ (List.mem_cons_self _ _), ?_⟩
      dsimp only
      cases hS : statsOfBlocks (statsHeader 0 (rm.mempoolSize chain)) a b with
      | error e => rfl
      | ok obj => exact statsOfBlocks_no_error _ a b (statsHeader_no_error _ _) obj hS

/-- Witness of C5 on the code: on the chain without blocks `getStats` reads the
block count four times, the pool size, then block 0, and the exception of that
read escapes; on the chain of one block it returns the `error` object. -/
theorem getStats_empty_chain_reads_block_witness :
    demoManager.blockchain.getBlockCount demoChain0 = 0
      ∧ (getStats demoManager demoChain0).result = Except.error "NOT_FOUND"
      ∧ blockReads (getStats demoManager demoChain0).trace = [0]
      ∧ Event.getBlock 0 ∈ (getStats demoManager demoChain0).trace
      ∧ (getStats demoManager demoChain1).result
          = Except.ok [("error", JVal.str "Need more data")] :=
  ⟨by rfl, by rfl, by rfl,
   (getStats_empty_chain_reads_block demoManager demoChain0 (by rfl)).1, by rfl⟩

/-! ## `getStats`: the divisions -/

/-- C10, on the code: when the last block of a chain of at least 2 blocks has no
transaction, the divisor `count` of the two averages is 0 and `getStats` has no
value: the `int` division `totalSent / count` is a division by zero. -/
theorem getStats_empty_last_block_divides_by_zero {σ : Type} (rm : RequestManager σ)
    (chain : σ) (a b : Block)
    (hc : 2 ≤ rm.blockchain.getBlockCount chain)
    (hc32 : rm.blockchain.getBlockCount chain < 4294967296)
    (ha : rm.blockchain.getBlock chain (rm.blockchain.getBlockCount chain) = Except.ok a)
    (hb : rm.blockchain.getBlock chain (rm.blockchain.getBlockCount chain - 1)
      = Except.ok b)
    (hempty : a.transactions = []) :
    (getStats rm chain).result = Except.error "integer division by zero" := by
  rw [getStats_of_blocks rm chain a b hc hc32 ha hb]
  obtain ⟨aid, ats, adiff, atxs⟩ := a
  simp only at hempty
  subst hempty
  rfl

/-- Witness of C10 on the code: the chain of block 1 and a block 2 without
transactions. -/
theorem getStats_empty_last_block_divides_by_zero_witness :
    2 ≤ demoManager.blockchain.getBlockCount demoChainEmptyLast
      ∧ demoBlock2Empty.timestamp - demoBlock1.timestamp = 100
      ∧ (getStats demoManager demoChainEmptyLast).result
          = Except.error "integer division by zero" :=
  ⟨by decide, by decide,
   getStats_empty_last_block_divides_by_zero demoManager demoChainEmptyLast demoBlock2Empty
     demoBlock1 (by decide) (by decide) (by rfl) (by rfl) (by rfl)⟩

/-- Supporting fact for C10: when the last block has between 1 and `2 ^ 31 - 1`
transactions and the totals of amounts and fees are below `2 ^ 31`, both
divisions have a value and the averages are the floors of total / count. -/
theorem getStats_averages {σ : Type} (rm : RequestManager σ) (chain : σ) (a b : Block)
    (hc : 2 ≤ rm.blockchain.getBlockCount chain)
    (hc32 : rm.blockchain.getBlockCount chain < 4294967296)
    (ha : rm.blockchain.getBlock chain (rm.blockchain.getBlockCount chain) = Except.ok a)
    (hb : rm.blockchain.getBlock chain (rm.blockchain.getBlockCount chain - 1)
      = Except.ok b)
    (hn : 1 ≤ a.transactions.length) (hn32 : a.transactions.length < 2147483648)
    (hsent : totalAmount a.transactions < 2147483648)
    (hfees : totalFees a.transactions < 2147483648) :
    (getStats rm chain).field "avg_transaction_size"
        = some (JVal.num ((totalAmount a.transactions / a.transactions.length : Nat) : Int))
      ∧ (getStats rm chain).field "avg_transaction_fee"
        = some (JVal.num ((totalFees a.transactions / a.transactions.length : Nat) : Int)) := by
  have hcount : wrap32 (a.transactions.length : Int) = a.transactions.length :=
    wrap32_small _ (by omega) (by omega)
  have hs : wrap32 (totalAmount a.transactions : Int) = totalAmount a.transactions :=
    wrap32_small _ (by omega) (by omega)
  have hf : wrap32 (totalFees a.transactions : Int) = totalFees a.transactions :=
    wrap32_small _ (by omega) (by omega)
  have hpos : (0 : Int) < a.transactions.length := by omega
  rw [getStats_of_blocks rm chain a b hc hc32 ha hb]
  unfold Outcome.field statsOfBlocks
  simp only [statsLoop_eq, hcount, hs, hf, intDiv_pos _ _ hpos, except_ok_bind, except_pure]
  constructor
  · iterate 4 rw [Json.get?_set_other _ _ _ _ (by decide)]
    rw [Json.get?_set_same, Int.ofNat_tdiv]
  · iterate 3 rw [Json.get?_set_other _ _ _ _ (by decide)]
    rw [Json.get?_set_same, Int.ofNat_tdiv]

/-! ## `getStats`: throughput -/

/-- Counterexample to C6: block 2 is `2 ^ 31` seconds after block 1 and has one
transaction, so `d` = 2147483648 > 0 and `n` = 1; `getStats` reports
`last_block_time` = -2147483648 and divides by that number. -/
theorem getStats_time_delta_wraps :
    demoManager.blockchain.getBlockCount demoChainLate = 2
      ∧ demoBlock2Late.timestamp - demoBlock1.timestamp = 2147483648
      ∧ demoBlock2Late.transactions.length = 1
      ∧ (getStats demoManager demoChainLate).field "last_block_time"
          = some (JVal.num (-2147483648))
      ∧ (getStats demoManager demoChainLate).field "last_block_time"
          ≠ some (JVal.num 2147483648)
      ∧ (getStats demoManager demoChainLate).field "transactions_per_second"
          = some (JVal.dbl 1 (-2147483648))
      ∧ (getStats demoManager demoChainLate).field "transactions_per_second"
          ≠ some (JVal.dbl 1 2147483648) := by
  decide

/-- C6 as amended: on a chain of at least 2 blocks whose last block `a` has the
id `block count` and `n` transactions with 1 ≤ `n` < 2 ^ 31, and lies `d` seconds
after the block `b` before it with 0 < `d` < 2 ^ 31, `getStats` reports
`transactions_per_second` = the `double` quotient of `n` by `d`,
`last_block_time` = `d` and `current_block` = the block count. -/
theorem getStats_reports_throughput {σ : Type} (rm : RequestManager σ) (chain : σ)
    (a b : Block)
    (hc : 2 ≤ rm.blockchain.getBlockCount chain)
    (hc32 : rm.blockchain.getBlockCount chain < 4294967296)
    (ha : rm.blockchain.getBlock chain (rm.blockchain.getBlockCount chain) = Except.ok a)
    (hb : rm.blockchain.getBlock chain (rm.blockchain.getBlockCount chain - 1)
      = Except.ok b)
    (hid : a.id = rm.blockchain.getBlockCount chain)
    (hd : b.timestamp < a.timestamp) (hd32 : a.timestamp - b.timestamp < 2147483648)
    (hn : 1 ≤ a.transactions.length) (hn32 : a.transactions.length < 2147483648) :
    (getStats rm chain).field "transactions_per_second"
        = some (JVal.dbl a.transactions.length ((a.timestamp - b.timestamp : Nat) : Int))
      ∧ (getStats rm chain).field "last_block_time"
        = some (JVal.num ((a.timestamp - b.timestamp : Nat) : Int))
      ∧ (getStats rm chain).field "current_block"
        = some (JVal.num (rm.blockchain.getBlockCount chain)) := by
  obtain ⟨obj, hobj, h1, h2, h3⟩ :=
    statsOfBlocks_ok (statsHeader (rm.blockchain.getBlockCount chain) (rm.mempoolSize chain))
      a b hd hd32 hn hn32
  rw [getStats_of_blocks rm chain a b hc hc32 ha hb]
  unfold Outcome.field
  simp only [hobj]
  exact ⟨h1, h2, by rw [h3, hid]⟩

/-- Witness of C6 as amended: blocks 1 and 2 are 100 seconds apart and block 2 has
one transaction, so the throughput is the quotient 1 / 100. -/
theorem getStats_reports_throughput_witness :
    2 ≤ demoManager.blockchain.getBlockCount demoChain2
      ∧ (getStats demoManager demoChain2).field "transactions_per_second"
          = some (JVal.dbl 1 100)
      ∧ (getStats demoManager demoChain2).field "last_block_time" = some (JVal.num 100)
      ∧ (getStats demoManager demoChain2).field "current_block" = some (JVal.num 2) :=
  ⟨by decide,
   getStats_reports_throughput demoManager demoChain2 demoBlock2 demoBlock1
     (by decide) (by decide) (by rfl) (by rfl) (by rfl) (by decide) (by decide) (by decide)
     (by decide)⟩

/-! ## `getStats`: the gate -/

/-- Counterexample to C7: on the chain of blocks 1 and 2 `getStats` reads block 2
and then block 1, and its trace has neither `acquire` nor `release`. -/
theorem getStats_reads_without_gate :
    blockReads (getStats demoManager demoChain2).trace = [2, 1]
      ∧ Event.acquire ∉ (getStats demoManager demoChain2).trace
      ∧ Event.release ∉ (getStats demoManager demoChain2).trace
      ∧ (getStats demoManager demoChain2).trace
          = [Event.getBlockCount, Event.getBlockCount, Event.getBlockCount,
             Event.mempoolSize, Event.getBlockCount, Event.getBlock 2, Event.getBlock 1] := by
  decide

/-- C7 as amended: `getStats` never takes the gate.  In every execution its trace
has no `acquire` and no `release` (and it detaches no thread), so every block it
reads is read with the gate not held.  With block count 1 it reads no block.
Otherwise it first calls `getBlock` for the last block; when that call throws
this is its only block read, and when that call returns it next calls `getBlock`
for the block before it, so the block reads are the last block and then the
block before it, in this order.  For a block count `c` with 2 ≤ `c` < 2 ^ 32 the
two indices are `c` and `c - 1`. -/
theorem getStats_never_takes_gate {σ : Type} (rm : RequestManager σ) (chain : σ) :
    gateOps (getStats rm chain).trace = []
      ∧ Event.acquire ∉ (getStats rm chain).trace
      ∧ Event.release ∉ (getStats rm chain).trace
      ∧ (getStats rm chain).detached = []
      ∧ (rm.blockchain.getBlockCount chain ≠ 1 →
          Event.getBlock (toU32 (wrap32 (rm.blockchain.getBlockCount chain)))
            ∈ (getStats rm chain).trace)
      ∧ (rm.blockchain.getBlockCount chain = 1 →
          blockReads (getStats rm chain).trace = [])
      ∧ (rm.blockchain.getBlockCount chain ≠ 1 →
          ∀ e, rm.blockchain.getBlock chain
              (toU32 (wrap32 (rm.blockchain.getBlockCount chain))) = Except.error e →
            blockReads (getStats rm chain).trace
              = [toU32 (wrap32 (rm.blockchain.getBlockCount chain))])
      ∧ (rm.blockchain.getBlockCount chain ≠ 1 →
          ∀ a, rm.blockchain.getBlock chain
              (toU32 (wrap32 (rm.blockchain.getBlockCount chain))) = Except.ok a →
            blockReads (getStats rm chain).trace
              = [toU32 (wrap32 (rm.blockchain.getBlockCount chain)),
                 toU32 (wrap32 (wrap32 (rm.blockchain.getBlockCount chain) - 1))])
      ∧ (2 ≤ rm.blockchain.getBlockCount chain →
          rm.blockchain.getBlockCount chain < 4294967296 →
            toU32 (wrap32 (rm.blockchain.getBlockCount chain))
                = rm.blockchain.getBlockCount chain
              ∧ toU32 (wrap32 (wrap32 (rm.blockchain.getBlockCount chain) - 1))
                = rm.blockchain.getBlockCount chain - 1) := by
  obtain ⟨hcases, hread, hdet, _⟩ := getStats_trace_cases rm chain
  obtain ⟨hone, hthrow, hboth⟩ := getStats_trace_exact rm chain
  refine ⟨?_, ?_, ?_, hdet, hread, ?_, ?_, ?_, ?_⟩
  · rcases hcases with h | h | h <;> rw [h] <;> rfl
  · rcases hcases with h | h | h <;> rw [h] <;> simp [statsReads]
  · rcases hcases with h | h | h <;> rw [h] <;> simp [statsReads]
  · intro h1
    rw [hone h1]
    rfl
  · intro hne e he
    rw [hthrow hne e he]
    rfl
  · intro hne a ha
    rw [hboth hne a ha]
    rfl
  · intro h2 h32
    exact ⟨toU32_wrap32 _ h32, toU32_wrap32_pred _ h32 (by omega)⟩

/-- Instances of C7 as amended: on the chain of blocks 1 and 2 the block reads are
block 2 and then block 1; on the chain without blocks the read of block 0 throws
and is the only block read; on the chain of one block no block is read.  None of
the three traces has a gate operation. -/
theorem getStats_never_takes_gate_witness :
    blockReads (getStats demoManager demoChain2).trace = [2, 1]
      ∧ blockReads (getStats demoManager demoChain0).trace = [0]
      ∧ blockReads (getStats demoManager demoChain1).trace = []
      ∧ gateOps (getStats demoManager demoChain2).trace = []
      ∧ gateOps (getStats demoManager demoChain0).trace = []
      ∧ gateOps (getStats demoManager demoChain1).trace = [] :=
  ⟨(getStats_never_takes_gate demoManager demoChain2).2.2.2.2.2.2.2.1 (by decide)
      demoBlock2 (by rfl),
   (getStats_never_takes_gate demoManager demoChain0).2.2.2.2.2.2.1 (by decide)
      "NOT_FOUND" (by rfl),
   (getStats_never_takes_gate demoManager demoChain1).2.2.2.2.2.1 (by rfl),
   (getStats_never_takes_gate demoManager demoChain2).1,
   (getStats_never_takes_gate demoManager demoChain0).1,
   (getStats_never_takes_gate demoManager demoChain1).1⟩

end Pandanite
